import Mathlib

/-!
Shallow embedding, in Lean 4, of the core of the Viva Guard application
(`src/App.tsx` and `src/types.ts`): the turn-accumulation state machine
driven by server messages, the PCM16 frame encoder with base64 transport
encoding, and the session controller's start/stop lifecycle.

JavaScript strings are modelled as `List Char`; JavaScript `String.prototype.trim`
is modelled by `jsTrim`; the mutable React refs and state setters are modelled
by explicit state passing over `AppState`.  Calls to `track.stop()` are
recorded in an output list of track identifiers, so that resource-release
claims can be stated.  `uuidv4()` is modelled by a fresh-id counter and
`new Date()` by a fixed clock field, which preserves everything the claims
depend on (distinctness of ids, sharing of the id between an assistant
message and its suggestion).
-/

/-- JavaScript strings as lists of characters. -/
abbrev Str := List Char

/-- The whitespace characters relevant to `String.prototype.trim`
(space, tab, line feed, carriage return, vertical tab, form feed,
no-break space). -/
def isJsWhitespace (c : Char) : Bool :=
  c = ' ' || c = '\t' || c = '\n' || c = '\r' || c = '\x0b' || c = '\x0c' || c = '\xa0'

/-- JavaScript `s.trim()`: remove leading and trailing whitespace. -/
def jsTrim (s : Str) : Str :=
  ((s.dropWhile isJsWhitespace).reverse.dropWhile isJsWhitespace).reverse

/-- `src/types.ts`: message roles, the string union type `'user' | 'assistant'`. -/
inductive Role where
  | user : Role
  | assistant : Role
deriving DecidableEq

/-- `src/types.ts`: `Message`.  `id` (a uuid) is modelled as a natural number,
`timestamp` (a `Date`) as a natural number. -/
structure Message where
  id : Nat
  role : Role
  text : Str
  timestamp : Nat
deriving DecidableEq

/-- `src/types.ts`: `Suggestion`. -/
structure Suggestion where
  id : Nat
  title : Str
  content : Str
  confidence : ℚ
  timestamp : Nat
deriving DecidableEq

/-- `src/types.ts`: `SessionStatus`. -/
structure SessionStatus where
  isActive : Bool
  isConnecting : Bool
  isMicActive : Bool
  error : Option Str
deriving DecidableEq

/-- A live session handle.  The only behaviour of `close()` the code
observes is whether it throws, so the handle carries that one bit. -/
structure SessionHandle where
  closeThrows : Bool
deriving DecidableEq

/-- A `MediaStream`: its audio tracks and its video tracks, as lists of
track identifiers.  `getTracks()` returns all of them. -/
structure MediaStream where
  audioTracks : List Nat
  videoTracks : List Nat
deriving DecidableEq

/-- `stream.getTracks()`. -/
def MediaStream.getTracks (m : MediaStream) : List Nat :=
  m.audioTracks ++ m.videoTracks

/-- `stream.getAudioTracks()`. -/
def MediaStream.getAudioTracks (m : MediaStream) : List Nat :=
  m.audioTracks

/-- The tracks held through an optional stream ref. -/
def refTracks : Option MediaStream → List Nat
  | none => []
  | some m => m.getTracks

/-- One `LiveServerMessage` as the `onmessage` handler reads it:
`serverContent` may carry an input-transcription delta, an
output-transcription delta, and/or a `turnComplete` flag. -/
structure ServerMessage where
  inputTranscription : Option Str
  outputTranscription : Option Str
  turnComplete : Bool
deriving DecidableEq

/-- The component state of `App`: React `useState` values, the refs, and the
model bookkeeping (fresh-id counter for `uuidv4()`, clock for `new Date()`). -/
structure AppState where
  status : SessionStatus
  messages : List Message
  suggestions : List Suggestion
  knowledgeBase : Str
  streamingInput : Str
  streamingOutput : Str
  sessionRef : Option SessionHandle
  audioContextRef : Option Nat
  micStreamRef : Option MediaStream
  systemStreamRef : Option MediaStream
  currentInputTranscription : Str
  currentOutputTranscription : Str
  freshId : Nat
  now : Nat
deriving DecidableEq

/-- The initial component state (`useState` initialisers in `App`). -/
def initialState : AppState :=
  { status := { isActive := false, isConnecting := false, isMicActive := false, error := none }
    messages := []
    suggestions := []
    knowledgeBase := []
    streamingInput := []
    streamingOutput := []
    sessionRef := none
    audioContextRef := none
    micStreamRef := none
    systemStreamRef := none
    currentInputTranscription := []
    currentOutputTranscription := []
    freshId := 0
    now := 0 }

/-- The delta phase of `onmessage` (App.tsx lines 176-184): an
output-transcription delta is appended to the output buffer and republished
as the live streaming value; otherwise (`else if`) an input delta is appended
to the input buffer.  The output branch takes precedence. -/
def processDeltas (m : ServerMessage) (st : AppState) : AppState :=
  match m.outputTranscription with
  | some t =>
      { st with
        currentOutputTranscription := st.currentOutputTranscription ++ t
        streamingOutput := st.currentOutputTranscription ++ t }
  | none =>
      match m.inputTranscription with
      | some t =>
          { st with
            currentInputTranscription := st.currentInputTranscription ++ t
            streamingInput := st.currentInputTranscription ++ t }
      | none => st

/-- `setSuggestions(prev => [newSuggestion, ...prev].slice(0, 15))`
(App.tsx line 208-214). -/
def insertSuggestion (x : Suggestion) (prev : List Suggestion) : List Suggestion :=
  (x :: prev).take 15

/-- The commit phase of `onmessage` on `turnComplete` (App.tsx lines 186-221):
commit a user message if the input buffer is non-empty after trimming, then an
assistant message plus a prepended suggestion if the output buffer is
non-empty after trimming, then clear both buffers and both streaming values.
The committed text is the raw buffer (`text: inputText`), not its trim. -/
def commitTurn (st : AppState) : AppState :=
  let inputText := st.currentInputTranscription
  let outputText := st.currentOutputTranscription
  let st1 :=
    if jsTrim inputText = [] then st
    else
      { st with
        messages := st.messages ++
          [{ id := st.freshId, role := Role.user, text := inputText, timestamp := st.now }]
        freshId := st.freshId + 1 }
  let st2 :=
    if jsTrim outputText = [] then st1
    else
      let newMsgId := st1.freshId
      { st1 with
        messages := st1.messages ++
          [{ id := newMsgId, role := Role.assistant, text := outputText, timestamp := st1.now }]
        suggestions :=
          insertSuggestion
            { id := newMsgId, title := "AI Insight".toList, content := outputText,
              confidence := mkRat 99 100, timestamp := st1.now }
            st1.suggestions
        freshId := st1.freshId + 1 }
  { st2 with
    currentInputTranscription := []
    currentOutputTranscription := []
    streamingInput := []
    streamingOutput := [] }

/-- The `onmessage` callback (App.tsx lines 175-222): the delta phase, then,
if the message carries `turnComplete`, the commit phase. -/
def onmessage (m : ServerMessage) (st : AppState) : AppState :=
  let st1 := processDeltas m st
  if m.turnComplete then commitTurn st1 else st1

/-- Feeding a sequence of server messages through `onmessage` in order. -/
def runMessages (ms : List ServerMessage) (st : AppState) : AppState :=
  ms.foldl (fun s m => onmessage m s) st

/-- A server message carrying only an input-transcription delta. -/
def inputDelta (t : Str) : ServerMessage :=
  { inputTranscription := some t, outputTranscription := none, turnComplete := false }

/-- A server message carrying only an output-transcription delta. -/
def outputDelta (t : Str) : ServerMessage :=
  { inputTranscription := none, outputTranscription := some t, turnComplete := false }

/-- A server message carrying only the turn-complete marker. -/
def turnCompleteMsg : ServerMessage :=
  { inputTranscription := none, outputTranscription := none, turnComplete := true }

/-- `session.close()`: succeeds, or throws, depending on the handle. -/
def SessionHandle.close (s : SessionHandle) : Except Unit Unit :=
  if s.closeThrows then Except.error () else Except.ok ()

/-- `stopSession` (App.tsx lines 53-75): best-effort close the session
(an exception from `close()` is caught and only logged), stop every track of
both stream refs and clear the refs, close the audio context and clear its
ref, reset `isActive`/`isMicActive`, and clear both live streaming values.
Returns the new state together with the list of track ids on which `stop()`
was invoked, in invocation order. -/
def stopSession (st : AppState) : AppState × List Nat :=
  let st1 :=
    match st.sessionRef with
    | some sess =>
        match sess.close with
        | Except.ok _ => { st with sessionRef := none }
        | Except.error _ => { st with sessionRef := none }
    | none => st
  let stopped := refTracks st1.micStreamRef ++ refTracks st1.systemStreamRef
  let st2 := { st1 with micStreamRef := none, systemStreamRef := none }
  let st3 := { st2 with audioContextRef := none }
  let st4 :=
    { st3 with
      status := { st3.status with isActive := false, isMicActive := false }
      streamingInput := []
      streamingOutput := [] }
  (st4, stopped)

/-- The fixed transport-error message set by `onerror` (App.tsx line 225). -/
def connectionErrorMsg : Str := "Connection error. Please restart Guard.".toList

/-- The `onerror` callback (App.tsx lines 223-227): record the error, clear
`isConnecting`, then run the same teardown as `stopSession`. -/
def onerror (st : AppState) : AppState × List Nat :=
  stopSession
    { st with status := { st.status with error := some connectionErrorMsg, isConnecting := false } }

/-- The `onclose` callback (App.tsx line 228): plain `stopSession`. -/
def onclose (st : AppState) : AppState × List Nat :=
  stopSession st

/-- Why `getDisplayMedia` rejected: the user denied/cancelled the prompt
(`NotAllowedError`) or some other failure. -/
inductive DisplayError where
  | notAllowed : DisplayError
  | other : Str → DisplayError
deriving DecidableEq

/-- What the browser environment and the service return to one run of
`startSession`: capability support, API-key presence, and the results of the
microphone acquisition, the display capture, and the connect call. -/
structure MediaEnv where
  mediaDevicesSupported : Bool
  apiKeyPresent : Bool
  micResult : Except Str MediaStream
  displayResult : Except DisplayError MediaStream
  connectResult : Except Str SessionHandle

/-- App.tsx line 83. -/
def mediaUnsupportedMsg : Str :=
  "Media capture is not supported in this browser or environment (ensure HTTPS/Localhost).".toList

/-- App.tsx line 94. -/
def apiKeyMissingMsg : Str := "API Key missing.".toList

/-- App.tsx line 107: the template literal prefixing the underlying message. -/
def micDeniedMsg (m : Str) : Str := "Microphone denied: ".toList ++ m

/-- App.tsx line 128: the error thrown when the display stream has no audio
track.  It names the corrective \x27Share audio\x27 action. -/
def audioNotSharedMsg : Str :=
  "AUDIO NOT SHARED: You must check the \x27Share audio\x27 box in the browser popup (usually bottom-left).".toList

/-- App.tsx line 133: the message substituted for a `NotAllowedError`. -/
def permissionDeniedMsg : Str :=
  "PERMISSION DENIED: You cancelled the share or denied permission. Please try again and ensure \x27Share Audio\x27 is checked.".toList

/-- The `catch` block at the end of `startSession` (App.tsx lines 254-258):
record the failure message, clear `isConnecting`, and tear down via
`stopSession`. -/
def startFailure (msg : Str) (st : AppState) : AppState × List Nat :=
  stopSession { st with status := { st.status with error := some msg, isConnecting := false } }

/-- `startSession` (App.tsx lines 77-259), as a function of the environment's
responses: reset status to connecting; fail fast when media capture or the
API key is missing; acquire the microphone (storing it in its ref); acquire
the display stream, failing — after stopping every track it carries — when it
has no audio track, and translating `NotAllowedError`; create the audio
context; connect; store the session handle.  Any failure runs the `catch`
path.  Returns the new state and the track ids stopped during the run, in
invocation order. -/
def startSession (env : MediaEnv) (st : AppState) : AppState × List Nat :=
  let st0 := { st with
    status := { isActive := false, isConnecting := true, isMicActive := false, error := none } }
  if env.mediaDevicesSupported = false then
    ({ st0 with status := { st0.status with error := some mediaUnsupportedMsg, isConnecting := false } }, [])
  else if env.apiKeyPresent = false then
    ({ st0 with status := { st0.status with error := some apiKeyMissingMsg, isConnecting := false } }, [])
  else
    match env.micResult with
    | Except.error m => startFailure (micDeniedMsg m) st0
    | Except.ok micStream =>
        let st1 := { st0 with micStreamRef := some micStream }
        match env.displayResult with
        | Except.error e =>
            let msg :=
              match e with
              | DisplayError.notAllowed => permissionDeniedMsg
              | DisplayError.other m => m
            startFailure msg st1
        | Except.ok systemStream =>
            if systemStream.getAudioTracks = [] then
              let stoppedNow := systemStream.getTracks
              let res := startFailure audioNotSharedMsg st1
              (res.1, stoppedNow ++ res.2)
            else
              let st2 := { st1 with systemStreamRef := some systemStream }
              let st3 := { st2 with audioContextRef := some st2.freshId }
              match env.connectResult with
              | Except.error m => startFailure m st3
              | Except.ok sess => ({ st3 with sessionRef := some sess }, [])

/-- The `onopen` callback (App.tsx lines 165-173): mark the session active
and the microphone hot. -/
def onopen (st : AppState) : AppState :=
  { st with status := { st.status with isActive := true, isConnecting := false, isMicActive := true } }

/-- The standard base64 alphabet. -/
def base64Alphabet : Str :=
  "ABCDEFGHIJKLMNOPQRSTUVWXYZabcdefghijklmnopqrstuvwxyz0123456789+/".toList

/-- The base64 digit for a 6-bit value. -/
def b64char (n : Nat) : Char :=
  base64Alphabet.getD n 'A'

/-- Standard base64 of a byte sequence, with `=` padding — the behaviour of
`btoa` on a binary string (App.tsx lines 32-39: `encode` builds the binary
string with `String.fromCharCode` over the bytes and applies `btoa`). -/
def encodeBase64 : List Nat → Str
  | [] => []
  | [b0] => [b64char (b0 / 4), b64char (b0 % 4 * 16), '=', '=']
  | [b0, b1] => [b64char (b0 / 4), b64char (b0 % 4 * 16 + b1 / 16), b64char (b1 % 16 * 4), '=']
  | b0 :: b1 :: b2 :: rest =>
      b64char (b0 / 4) :: b64char (b0 % 4 * 16 + b1 / 16) ::
        b64char (b1 % 16 * 4 + b2 / 64) :: b64char (b2 % 64) :: encodeBase64 rest

/-- `encode(bytes)` (App.tsx lines 32-39). -/
def encode (bytes : List Nat) : Str :=
  encodeBase64 bytes

/-- Truncation toward zero of a rational — ECMAScript number-to-integer
conversion for finite values. -/
def truncRat (x : ℚ) : ℤ :=
  x.num.tdiv (x.den : ℤ)

/-- The 16-bit pattern `Int16Array` stores for `data[i] * 32768`
(ECMAScript `ToInt16`: truncate toward zero, then reduce modulo 2^16).
Samples are modelled as exact rationals; multiplication of a float by the
power of two 32768 is exact, so this is faithful to the JavaScript value. -/
def toInt16bits (x : ℚ) : Nat :=
  (truncRat (x * 32768) % 65536).toNat

/-- The two bytes of a 16-bit pattern in little-endian order — what
`new Uint8Array(int16.buffer)` reads on a little-endian platform. -/
def int16ToBytes (v : Nat) : List Nat :=
  [v % 256, v / 256]

/-- The value produced by `createBlob` (App.tsx lines 41-51), with
`Blob.data` the base64 payload. -/
structure GeminiBlob where
  data : Str
  mimeType : Str
deriving DecidableEq

/-- `createBlob(data)` (App.tsx lines 41-51): quantize each sample into an
`Int16Array`, reinterpret its buffer as bytes, and base64-encode them. -/
def createBlob (data : List ℚ) : GeminiBlob :=
  let int16 := data.map toInt16bits
  { data := encode (int16.flatMap int16ToBytes)
    mimeType := "audio/pcm;rate=16000".toList }

/-- Modelled from the spec words (section 4.1), for comparison with
`createBlob`: multiply each sample by 32768, truncate to a 16-bit *signed*
integer with wraparound modulo 2^16, pack the signed values little-endian
into bytes (two's complement), and standard-base64 encode. -/
def toInt16Signed (x : ℚ) : ℤ :=
  let v := truncRat (x * 32768) % 65536
  if v ≥ 32768 then v - 65536 else v

/-- Little-endian two's-complement bytes of a 16-bit signed value. -/
def int16SignedToBytesLE (v : ℤ) : List Nat :=
  [(v % 65536).toNat % 256, (v % 65536).toNat / 256]

/-- The spec-words frame encoder (section 4.1 of the spec). -/
def createBlobSpec (data : List ℚ) : GeminiBlob :=
  { data := encodeBase64 ((data.map toInt16Signed).flatMap int16SignedToBytesLE)
    mimeType := "audio/pcm;rate=16000".toList }

/-! ### Helper lemmas about the delta phase and the commit phase -/

theorem processDeltas_messages (m : ServerMessage) (st : AppState) :
    (processDeltas m st).messages = st.messages := by
  rcases m with ⟨i, o, tc⟩
  cases o <;> cases i <;> rfl

theorem processDeltas_suggestions (m : ServerMessage) (st : AppState) :
    (processDeltas m st).suggestions = st.suggestions := by
  rcases m with ⟨i, o, tc⟩
  cases o <;> cases i <;> rfl

theorem processDeltas_freshId (m : ServerMessage) (st : AppState) :
    (processDeltas m st).freshId = st.freshId := by
  rcases m with ⟨i, o, tc⟩
  cases o <;> cases i <;> rfl

theorem processDeltas_now (m : ServerMessage) (st : AppState) :
    (processDeltas m st).now = st.now := by
  rcases m with ⟨i, o, tc⟩
  cases o <;> cases i <;> rfl

theorem processDeltas_of_none (m : ServerMessage) (st : AppState)
    (h1 : m.inputTranscription = none) (h2 : m.outputTranscription = none) :
    processDeltas m st = st := by
  rcases m with ⟨i, o, tc⟩
  cases h1
  cases h2
  rfl

/-- The user-role message committed from the input buffer of `st`. -/
def userMsgOf (st : AppState) : Message :=
  { id := st.freshId, role := Role.user, text := st.currentInputTranscription,
    timestamp := st.now }

/-- The assistant-role message committed from the output buffer of `st`,
with the given fresh id. -/
def assistantMsgOf (id : Nat) (st : AppState) : Message :=
  { id := id, role := Role.assistant, text := st.currentOutputTranscription,
    timestamp := st.now }

/-- The suggestion derived from the output buffer of `st`, sharing the
assistant message's id. -/
def suggestionOf (id : Nat) (st : AppState) : Suggestion :=
  { id := id, title := "AI Insight".toList, content := st.currentOutputTranscription,
    confidence := mkRat 99 100, timestamp := st.now }

theorem commitTurn_both_empty (st : AppState)
    (h1 : jsTrim st.currentInputTranscription = [])
    (h2 : jsTrim st.currentOutputTranscription = []) :
    commitTurn st =
      { st with currentInputTranscription := [], currentOutputTranscription := [],
                streamingInput := [], streamingOutput := [] } := by
  unfold commitTurn
  simp [h1, h2]

theorem commitTurn_input_only (st : AppState)
    (h1 : jsTrim st.currentInputTranscription ≠ [])
    (h2 : jsTrim st.currentOutputTranscription = []) :
    commitTurn st =
      { st with messages := st.messages ++ [userMsgOf st]
                freshId := st.freshId + 1
                currentInputTranscription := [], currentOutputTranscription := [],
                streamingInput := [], streamingOutput := [] } := by
  unfold commitTurn
  simp [h1, h2, userMsgOf]

theorem commitTurn_output_only (st : AppState)
    (h1 : jsTrim st.currentInputTranscription = [])
    (h2 : jsTrim st.currentOutputTranscription ≠ []) :
    commitTurn st =
      { st with messages := st.messages ++ [assistantMsgOf st.freshId st]
                suggestions := insertSuggestion (suggestionOf st.freshId st) st.suggestions
                freshId := st.freshId + 1
                currentInputTranscription := [], currentOutputTranscription := [],
                streamingInput := [], streamingOutput := [] } := by
  unfold commitTurn
  simp [h1, h2, assistantMsgOf, suggestionOf]

theorem commitTurn_both (st : AppState)
    (h1 : jsTrim st.currentInputTranscription ≠ [])
    (h2 : jsTrim st.currentOutputTranscription ≠ []) :
    commitTurn st =
      { st with messages := st.messages ++ [userMsgOf st, assistantMsgOf (st.freshId + 1) st]
                suggestions := insertSuggestion (suggestionOf (st.freshId + 1) st) st.suggestions
                freshId := st.freshId + 2
                currentInputTranscription := [], currentOutputTranscription := [],
                streamingInput := [], streamingOutput := [] } := by
  unfold commitTurn
  simp [h1, h2, userMsgOf, assistantMsgOf, suggestionOf]

theorem onmessage_turnComplete (st : AppState) :
    onmessage turnCompleteMsg st = commitTurn st := rfl

theorem onmessage_of_turnComplete (m : ServerMessage) (st : AppState)
    (h : m.turnComplete = true) :
    onmessage m st = commitTurn (processDeltas m st) := by
  simp [onmessage, h]

theorem onmessage_of_not_turnComplete (m : ServerMessage) (st : AppState)
    (h : m.turnComplete = false) :
    onmessage m st = processDeltas m st := by
  simp [onmessage, h]

/-! ### Frame encoder lemmas -/

theorem int16Bytes_agree (x : ℚ) :
    int16ToBytes (toInt16bits x) = int16SignedToBytesLE (toInt16Signed x) := by
  have h0 : 0 ≤ truncRat (x * 32768) % 65536 := Int.emod_nonneg _ (by norm_num)
  have h1 : truncRat (x * 32768) % 65536 < 65536 :=
    Int.emod_lt_of_pos _ (by norm_num)
  simp only [int16ToBytes, int16SignedToBytesLE, toInt16bits, toInt16Signed]
  have key : ∀ e : ℤ, 0 ≤ e → e < 65536 →
      (if e ≥ 32768 then e - 65536 else e) % 65536 = e := by
    intro e he0 he1
    split <;> omega
  rw [key _ h0 h1]

theorem createBlob_eq_spec (data : List ℚ) : createBlob data = createBlobSpec data := by
  have hbytes : ∀ l : List ℚ,
      (l.map toInt16bits).flatMap int16ToBytes
        = (l.map toInt16Signed).flatMap int16SignedToBytesLE := by
    intro l
    induction l with
    | nil => rfl
    | cons a t ih => simp [List.flatMap_cons, int16Bytes_agree a, ih]
  simp [createBlob, createBlobSpec, encode, hbytes data]

/-! ### Suggestion cap lemmas -/

theorem insertSuggestion_length_le (x : Suggestion) (prev : List Suggestion) :
    (insertSuggestion x prev).length ≤ 15 := by
  simp [insertSuggestion]

theorem insertSuggestion_eq_cons_take (x : Suggestion) (prev : List Suggestion) :
    insertSuggestion x prev = x :: prev.take 14 := by
  have h : (x :: prev).take (14 + 1) = x :: prev.take 14 := List.take_succ_cons
  simp only [insertSuggestion]
  exact h

theorem onmessage_suggestions_le (m : ServerMessage) (st : AppState)
    (h : st.suggestions.length ≤ 15) : (onmessage m st).suggestions.length ≤ 15 := by
  by_cases htc : m.turnComplete = true
  · rw [onmessage_of_turnComplete m st htc]
    have hsug : (processDeltas m st).suggestions = st.suggestions :=
      processDeltas_suggestions m st
    by_cases h1 : jsTrim (processDeltas m st).currentInputTranscription = [] <;>
      by_cases h2 : jsTrim (processDeltas m st).currentOutputTranscription = []
    · rw [commitTurn_both_empty _ h1 h2]
      simpa [hsug] using h
    · rw [commitTurn_output_only _ h1 h2]
      simpa using insertSuggestion_length_le _ _
    · rw [commitTurn_input_only _ h1 h2]
      simpa [hsug] using h
    · rw [commitTurn_both _ h1 h2]
      simpa using insertSuggestion_length_le _ _
  · rw [onmessage_of_not_turnComplete m st (by simpa using htc)]
    simpa [processDeltas_suggestions] using h

theorem runMessages_suggestions_le (ms : List ServerMessage) (st : AppState)
    (h : st.suggestions.length ≤ 15) :
    (runMessages ms st).suggestions.length ≤ 15 := by
  induction ms generalizing st with
  | nil => simpa [runMessages] using h
  | cons m t ih =>
      simpa [runMessages] using ih (onmessage m st) (onmessage_suggestions_le m st h)

theorem getLast_not_mem_insert (x : Suggestion) (prev : List Suggestion)
    (h15 : prev.length = 15) (hnd : (x :: prev).Nodup) (l : Suggestion)
    (hl : prev.getLast? = some l) : l ∉ insertSuggestion x prev := by
  have hx : x ∉ prev := (List.nodup_cons.mp hnd).1
  have hndp : prev.Nodup := (List.nodup_cons.mp hnd).2
  obtain ⟨a, ha⟩ : ∃ a, prev.drop 14 = [a] := by
    have hlen : (prev.drop 14).length = 1 := by simp [h15]
    exact List.length_eq_one.mp hlen
  have hsplit : prev.take 14 ++ [a] = prev := by
    rw [← ha]
    exact List.take_append_drop _ _
  have hla : l = a := by
    have hga : prev.getLast? = some a := by
      rw [← hsplit]
      exact List.getLast?_concat _
    rw [hl] at hga
    exact Option.some.inj hga
  have hamem : a ∈ prev := by
    rw [← hsplit]
    simp
  have hnotake : a ∉ prev.take 14 := by
    rw [← hsplit] at hndp
    have := List.disjoint_of_nodup_append hndp
    intro hmem
    exact this hmem (by simp)
  rw [insertSuggestion_eq_cons_take, hla]
  intro hmem
  rcases List.mem_cons.mp hmem with h | h
  · exact hx (h ▸ hamem)
  · exact hnotake h

/-! ### Claim theorems -/

/-- Claim C5: the frame encoder is a pure deterministic function of the
sample block: each sample is multiplied by 32768 and truncated to a 16-bit
signed integer with wraparound modulo 2^16 (no clamping), the 16-bit values
are packed little-endian into bytes, and the bytes are standard-base64
encoded; identical input blocks yield byte-identical output.  Stated as:
`createBlob` agrees everywhere with the spec-words encoder `createBlobSpec`;
it is deterministic; and the out-of-range sample 1.0 wraps to -32768
(bytes 00 80, payload "AIA="). -/
theorem claim5_frame_encoder :
    (∀ data : List ℚ, createBlob data = createBlobSpec data) ∧
    (∀ d1 d2 : List ℚ, d1 = d2 → createBlob d1 = createBlob d2) ∧
    (createBlob [(1 : ℚ)]).data = "AIA=".toList := by
  refine ⟨createBlob_eq_spec, fun d1 d2 h => by rw [h], ?_⟩
  have h : (1 : ℚ) * 32768 = ((32768 : ℕ) : ℚ) := by norm_num
  simp [createBlob, encode, toInt16bits, truncRat, h]
  decide

/-- Witness for C5 at the concrete block `[1.0]`. -/
theorem claim5_frame_encoder_witness :
    ([(1 : ℚ)] = [(1 : ℚ)]) ∧ createBlob [(1 : ℚ)] = createBlob [(1 : ℚ)] :=
  ⟨rfl, claim5_frame_encoder.2.1 [(1 : ℚ)] [(1 : ℚ)] rfl⟩

/-- Claim C3: the suggestion list never exceeds 15 entries (both as a
property of the insertion operation and as an invariant of every run of the
message handler from the initial state); and inserting into a full list of 15
puts the new entry at the head, drops the previously oldest (last) entry, and
keeps the remaining entries in their previous relative order (the tail is the
first 14 entries of the old list, a prefix of it). -/
theorem claim3_suggestion_cap :
    (∀ (x : Suggestion) (prev : List Suggestion), (insertSuggestion x prev).length ≤ 15) ∧
    (∀ ms : List ServerMessage, (runMessages ms initialState).suggestions.length ≤ 15) ∧
    (∀ (x : Suggestion) (prev : List Suggestion), prev.length = 15 → (x :: prev).Nodup →
      insertSuggestion x prev = x :: prev.take 14 ∧
      (insertSuggestion x prev).head? = some x ∧
      prev.take 14 <+: prev ∧
      ∀ l, prev.getLast? = some l → l ∉ insertSuggestion x prev) := by
  refine ⟨insertSuggestion_length_le,
    fun ms => runMessages_suggestions_le ms initialState (by simp [initialState]), ?_⟩
  intro x prev h15 hnd
  refine ⟨insertSuggestion_eq_cons_take x prev, ?_, List.take_prefix _ _,
    fun l hl => getLast_not_mem_insert x prev h15 hnd l hl⟩
  rw [insertSuggestion_eq_cons_take]
  rfl

/-- A concrete suggestion for the C3 witness. -/
def wSugg (i : Nat) : Suggestion :=
  { id := i, title := [], content := [], confidence := mkRat 99 100, timestamp := 0 }

/-- A concrete full (15-entry) suggestion list for the C3 witness. -/
def wPrev : List Suggestion :=
  (List.range 15).map wSugg

/-- Witness for C3 at a concrete full list of 15 distinct suggestions. -/
theorem claim3_suggestion_cap_witness :
    wPrev.length = 15 ∧ (wSugg 15 :: wPrev).Nodup ∧
    insertSuggestion (wSugg 15) wPrev = wSugg 15 :: wPrev.take 14 := by
  refine ⟨by decide, by decide, ?_⟩
  exact (claim3_suggestion_cap.2.2 (wSugg 15) wPrev (by decide) (by decide)).1

/-- Claim C2: a turnComplete event arriving when both transcription buffers
are empty or whitespace-only commits zero Messages and zero Suggestions, and
resets both buffers and both live-streaming values to empty. -/
theorem claim2_empty_turn_commits_nothing (st : AppState)
    (h1 : jsTrim st.currentInputTranscription = [])
    (h2 : jsTrim st.currentOutputTranscription = []) :
    (onmessage turnCompleteMsg st).messages = st.messages ∧
    (onmessage turnCompleteMsg st).suggestions = st.suggestions ∧
    (onmessage turnCompleteMsg st).currentInputTranscription = [] ∧
    (onmessage turnCompleteMsg st).currentOutputTranscription = [] ∧
    (onmessage turnCompleteMsg st).streamingInput = [] ∧
    (onmessage turnCompleteMsg st).streamingOutput = [] := by
  rw [onmessage_turnComplete, commitTurn_both_empty st h1 h2]
  simp

/-- A state whose input buffer is whitespace-only, for the C2 witness. -/
def wWhitespaceState : AppState :=
  { initialState with currentInputTranscription := " ".toList, streamingInput := " ".toList }

/-- Witness for C2 at a concrete whitespace-only state. -/
theorem claim2_empty_turn_commits_nothing_witness :
    jsTrim wWhitespaceState.currentInputTranscription = [] ∧
    jsTrim wWhitespaceState.currentOutputTranscription = [] ∧
    (onmessage turnCompleteMsg wWhitespaceState).messages = wWhitespaceState.messages ∧
    (onmessage turnCompleteMsg wWhitespaceState).suggestions = wWhitespaceState.suggestions ∧
    (onmessage turnCompleteMsg wWhitespaceState).streamingInput = [] := by
  have h := claim2_empty_turn_commits_nothing wWhitespaceState (by decide) (by decide)
  exact ⟨by decide, by decide, h.1, h.2.1, h.2.2.2.2.1⟩

/-- Claim C6: on a server message carrying both an input-transcription delta
and an output-transcription delta, only the output delta is processed — it is
appended to the output buffer and republished as the live streaming output —
while the input buffer and the live streaming input are left unchanged; and
when the message carries no turnComplete flag the whole handler does exactly
that. -/
theorem claim6_output_precedence (m : ServerMessage) (st : AppState)
    (tIn tOut : Str) (hIn : m.inputTranscription = some tIn)
    (hOut : m.outputTranscription = some tOut) :
    (processDeltas m st).currentOutputTranscription
        = st.currentOutputTranscription ++ tOut ∧
    (processDeltas m st).streamingOutput = st.currentOutputTranscription ++ tOut ∧
    (processDeltas m st).currentInputTranscription = st.currentInputTranscription ∧
    (processDeltas m st).streamingInput = st.streamingInput ∧
    (m.turnComplete = false → onmessage m st = processDeltas m st) := by
  rcases m with ⟨i, o, tc⟩
  cases hIn
  cases hOut
  refine ⟨rfl, rfl, rfl, rfl, fun h => ?_⟩
  simp at h
  simp [onmessage, h]

/-- A message carrying both deltas, for the C6 witness. -/
def wBothDeltas : ServerMessage :=
  { inputTranscription := some ("ignored".toList),
    outputTranscription := some ("kept".toList), turnComplete := false }

/-- Witness for C6 at a concrete message carrying both deltas. -/
theorem claim6_output_precedence_witness :
    wBothDeltas.inputTranscription = some ("ignored".toList) ∧
    wBothDeltas.outputTranscription = some ("kept".toList) ∧
    (processDeltas wBothDeltas initialState).currentOutputTranscription = "kept".toList ∧
    (processDeltas wBothDeltas initialState).currentInputTranscription = [] := by
  have h := claim6_output_precedence wBothDeltas initialState
    ("ignored".toList) ("kept".toList) rfl rfl
  refine ⟨rfl, rfl, ?_, ?_⟩
  · rw [h.1]
    decide
  · rw [h.2.2.1]
    decide

/-- Claim C7: on a turnComplete where both buffers are non-empty after
trimming, the user-role message (from the input buffer) is appended to the
history before the assistant-role message (from the output buffer).  The
state is universally quantified, so this holds whatever interleaving of
deltas produced the buffers. -/
theorem claim7_user_before_assistant (st : AppState)
    (h1 : jsTrim st.currentInputTranscription ≠ [])
    (h2 : jsTrim st.currentOutputTranscription ≠ []) :
    (onmessage turnCompleteMsg st).messages =
      st.messages ++ [userMsgOf st, assistantMsgOf (st.freshId + 1) st] ∧
    (userMsgOf st).role = Role.user ∧
    (userMsgOf st).text = st.currentInputTranscription ∧
    (assistantMsgOf (st.freshId + 1) st).role = Role.assistant ∧
    (assistantMsgOf (st.freshId + 1) st).text = st.currentOutputTranscription := by
  rw [onmessage_turnComplete, commitTurn_both st h1 h2]
  exact ⟨rfl, rfl, rfl, rfl, rfl⟩

/-- A state with both buffers non-empty, for the C7 witness. -/
def wBothBuffers : AppState :=
  { initialState with
      currentInputTranscription := "hi".toList
      currentOutputTranscription := "yo".toList }

/-- Witness for C7 at a concrete state with both buffers non-empty. -/
theorem claim7_user_before_assistant_witness :
    jsTrim wBothBuffers.currentInputTranscription ≠ [] ∧
    jsTrim wBothBuffers.currentOutputTranscription ≠ [] ∧
    (onmessage turnCompleteMsg wBothBuffers).messages =
      [userMsgOf wBothBuffers, assistantMsgOf 1 wBothBuffers] := by
  have h := claim7_user_before_assistant wBothBuffers (by decide) (by decide)
  refine ⟨by decide, by decide, ?_⟩
  have h0 := h.1
  simpa [wBothBuffers, initialState] using h0

/-- Claim C4: every turnComplete whose output buffer (after the event's own
delta phase) is non-empty after trimming creates exactly one Suggestion,
prepended at the head of the capped list, with title "AI Insight", confidence
0.99, and content equal to the committed assistant text (`suggestionOf` and
`assistantMsgOf` share the buffer text and the fresh id); and no other event
changes the suggestion list — neither a non-turnComplete message nor a
turnComplete whose output buffer is empty after trimming (a user-only turn). -/
theorem claim4_suggestion_per_assistant_turn :
    (∀ (m : ServerMessage) (st : AppState), m.turnComplete = true →
      jsTrim (processDeltas m st).currentOutputTranscription ≠ [] →
      ∃ id,
        (onmessage m st).suggestions =
          insertSuggestion (suggestionOf id (processDeltas m st)) st.suggestions ∧
        (onmessage m st).suggestions.head? = some (suggestionOf id (processDeltas m st)) ∧
        (onmessage m st).messages.getLast? = some (assistantMsgOf id (processDeltas m st)) ∧
        (suggestionOf id (processDeltas m st)).title = "AI Insight".toList ∧
        (suggestionOf id (processDeltas m st)).confidence = mkRat 99 100 ∧
        (suggestionOf id (processDeltas m st)).content
          = (assistantMsgOf id (processDeltas m st)).text) ∧
    (∀ (m : ServerMessage) (st : AppState), m.turnComplete = false →
      (onmessage m st).suggestions = st.suggestions) ∧
    (∀ (m : ServerMessage) (st : AppState), m.turnComplete = true →
      jsTrim (processDeltas m st).currentOutputTranscription = [] →
      (onmessage m st).suggestions = st.suggestions) := by
  refine ⟨?_, ?_, ?_⟩
  · intro m st htc h2
    rw [onmessage_of_turnComplete m st htc]
    have hsug : (processDeltas m st).suggestions = st.suggestions :=
      processDeltas_suggestions m st
    by_cases h1 : jsTrim (processDeltas m st).currentInputTranscription = []
    · refine ⟨(processDeltas m st).freshId, ?_⟩
      rw [commitTurn_output_only _ h1 h2]
      refine ⟨by simp [hsug], ?_, ?_, rfl, rfl, rfl⟩
      · simp [insertSuggestion_eq_cons_take]
      · simp
    · refine ⟨(processDeltas m st).freshId + 1, ?_⟩
      rw [commitTurn_both _ h1 h2]
      refine ⟨by simp [hsug], ?_, ?_, rfl, rfl, rfl⟩
      · simp [insertSuggestion_eq_cons_take]
      · have hsplit :
            (processDeltas m st).messages ++
                [userMsgOf (processDeltas m st),
                  assistantMsgOf ((processDeltas m st).freshId + 1) (processDeltas m st)]
              = ((processDeltas m st).messages ++ [userMsgOf (processDeltas m st)]) ++
                  [assistantMsgOf ((processDeltas m st).freshId + 1) (processDeltas m st)] := by
          simp
        simp only [hsplit]
        simp [List.getLast?_concat]
  · intro m st htc
    rw [onmessage_of_not_turnComplete m st htc]
    exact processDeltas_suggestions m st
  · intro m st htc h2
    rw [onmessage_of_turnComplete m st htc]
    by_cases h1 : jsTrim (processDeltas m st).currentInputTranscription = []
    · rw [commitTurn_both_empty _ h1 h2]
      simpa using processDeltas_suggestions m st
    · rw [commitTurn_input_only _ h1 h2]
      simpa using processDeltas_suggestions m st

/-- An assistant-turn message, for the C4 witness. -/
def wAssistantTurn : ServerMessage :=
  { inputTranscription := none,
    outputTranscription := some ("The answer is 4.".toList), turnComplete := true }

/-- Witness for C4 at a concrete assistant-only turn. -/
theorem claim4_suggestion_per_assistant_turn_witness :
    wAssistantTurn.turnComplete = true ∧
    jsTrim (processDeltas wAssistantTurn initialState).currentOutputTranscription ≠ [] ∧
    ∃ id,
      (onmessage wAssistantTurn initialState).suggestions =
        insertSuggestion (suggestionOf id (processDeltas wAssistantTurn initialState))
          initialState.suggestions ∧
      (onmessage wAssistantTurn initialState).suggestions.head? =
        some (suggestionOf id (processDeltas wAssistantTurn initialState)) ∧
      (onmessage wAssistantTurn initialState).messages.getLast? =
        some (assistantMsgOf id (processDeltas wAssistantTurn initialState)) ∧
      (suggestionOf id (processDeltas wAssistantTurn initialState)).title
        = "AI Insight".toList ∧
      (suggestionOf id (processDeltas wAssistantTurn initialState)).confidence
        = mkRat 99 100 ∧
      (suggestionOf id (processDeltas wAssistantTurn initialState)).content
        = (assistantMsgOf id (processDeltas wAssistantTurn initialState)).text :=
  ⟨rfl, by decide,
    claim4_suggestion_per_assistant_turn.1 wAssistantTurn initialState rfl (by decide)⟩

/-! ### Lemmas about runs of pure delta sequences -/

theorem runInputDeltas (texts : List Str) (st : AppState) :
    (runMessages (texts.map inputDelta) st).currentInputTranscription
        = st.currentInputTranscription ++ texts.flatten ∧
    (runMessages (texts.map inputDelta) st).currentOutputTranscription
        = st.currentOutputTranscription ∧
    (runMessages (texts.map inputDelta) st).messages = st.messages ∧
    (runMessages (texts.map inputDelta) st).suggestions = st.suggestions ∧
    (runMessages (texts.map inputDelta) st).freshId = st.freshId ∧
    (runMessages (texts.map inputDelta) st).now = st.now := by
  induction texts generalizing st with
  | nil => simp [runMessages]
  | cons a t ih =>
      have hstep : runMessages ((a :: t).map inputDelta) st
          = runMessages (t.map inputDelta)
              { st with currentInputTranscription := st.currentInputTranscription ++ a
                        streamingInput := st.currentInputTranscription ++ a } := by
        simp [runMessages, onmessage, inputDelta, processDeltas]
      rw [hstep]
      obtain ⟨c1, c2, c3, c4, c5, c6⟩ := ih
        { st with currentInputTranscription := st.currentInputTranscription ++ a
                  streamingInput := st.currentInputTranscription ++ a }
      exact ⟨by simp [c1], by simpa using c2, by simpa using c3,
        by simpa using c4, by simpa using c5, by simpa using c6⟩

theorem runOutputDeltas (texts : List Str) (st : AppState) :
    (runMessages (texts.map outputDelta) st).currentOutputTranscription
        = st.currentOutputTranscription ++ texts.flatten ∧
    (runMessages (texts.map outputDelta) st).currentInputTranscription
        = st.currentInputTranscription ∧
    (runMessages (texts.map outputDelta) st).messages = st.messages ∧
    (runMessages (texts.map outputDelta) st).suggestions = st.suggestions ∧
    (runMessages (texts.map outputDelta) st).freshId = st.freshId ∧
    (runMessages (texts.map outputDelta) st).now = st.now := by
  induction texts generalizing st with
  | nil => simp [runMessages]
  | cons a t ih =>
      have hstep : runMessages ((a :: t).map outputDelta) st
          = runMessages (t.map outputDelta)
              { st with currentOutputTranscription := st.currentOutputTranscription ++ a
                        streamingOutput := st.currentOutputTranscription ++ a } := by
        simp [runMessages, onmessage, outputDelta, processDeltas]
      rw [hstep]
      obtain ⟨c1, c2, c3, c4, c5, c6⟩ := ih
        { st with currentOutputTranscription := st.currentOutputTranscription ++ a
                  streamingOutput := st.currentOutputTranscription ++ a }
      exact ⟨by simp [c1], by simpa using c2, by simpa using c3,
        by simpa using c4, by simpa using c5, by simpa using c6⟩

theorem runMessages_append_single (ms : List ServerMessage) (m : ServerMessage)
    (st : AppState) :
    runMessages (ms ++ [m]) st = onmessage m (runMessages ms st) := by
  simp [runMessages, List.foldl_append]

theorem onmessage_messages_trimmed (m : ServerMessage) (st : AppState)
    (h : ∀ msg ∈ st.messages, jsTrim msg.text ≠ []) :
    ∀ msg ∈ (onmessage m st).messages, jsTrim msg.text ≠ [] := by
  have hpm : (processDeltas m st).messages = st.messages := processDeltas_messages m st
  by_cases htc : m.turnComplete = true
  · rw [onmessage_of_turnComplete m st htc]
    by_cases h1 : jsTrim (processDeltas m st).currentInputTranscription = [] <;>
      by_cases h2 : jsTrim (processDeltas m st).currentOutputTranscription = []
    · rw [commitTurn_both_empty _ h1 h2]
      simpa [hpm] using h
    · rw [commitTurn_output_only _ h1 h2]
      intro msg hm
      simp [hpm] at hm
      rcases hm with hm | hm
      · exact h msg hm
      · rw [hm]
        simpa [assistantMsgOf] using h2
    · rw [commitTurn_input_only _ h1 h2]
      intro msg hm
      simp [hpm] at hm
      rcases hm with hm | hm
      · exact h msg hm
      · rw [hm]
        simpa [userMsgOf] using h1
    · rw [commitTurn_both _ h1 h2]
      intro msg hm
      simp [hpm] at hm
      rcases hm with hm | hm | hm
      · exact h msg hm
      · rw [hm]
        simpa [userMsgOf] using h1
      · rw [hm]
        simpa [assistantMsgOf] using h2
  · rw [onmessage_of_not_turnComplete m st (by simpa using htc)]
    simpa [hpm] using h

theorem runMessages_messages_trimmed (ms : List ServerMessage) (st : AppState)
    (h : ∀ msg ∈ st.messages, jsTrim msg.text ≠ []) :
    ∀ msg ∈ (runMessages ms st).messages, jsTrim msg.text ≠ [] := by
  induction ms generalizing st with
  | nil => simpa [runMessages] using h
  | cons m t ih =>
      have hstep : runMessages (m :: t) st = runMessages t (onmessage m st) := by
        simp [runMessages]
      rw [hstep]
      exact ih (onmessage m st) (onmessage_messages_trimmed m st h)

/-- Counterexample to C1 as stated: a single input delta " 4 " followed by
turnComplete commits a Message whose text is the raw concatenation " 4 ",
not the trimmed concatenation "4". -/
theorem claim1_counterexample :
    ((onmessage turnCompleteMsg
        (onmessage (inputDelta " 4 ".toList) initialState)).messages.map Message.text
      = [" 4 ".toList]) ∧
    jsTrim " 4 ".toList ≠ " 4 ".toList ∧
    ¬((onmessage turnCompleteMsg
        (onmessage (inputDelta " 4 ".toList) initialState)).messages.map Message.text
      = [jsTrim " 4 ".toList]) := by decide

/-- Claim C1 as amended: for every sequence of transcription deltas of one
direction followed by turnComplete, the committed Message's text equals the
raw concatenation of the delta texts in arrival order (NOT trimmed); a
Message is committed exactly when that concatenation is non-empty after
trimming, and consequently every committed Message's text is non-empty after
trimming (the invariant holds over every run from the initial state). -/
theorem claim1_commit_concatenation :
    (∀ texts : List Str, jsTrim texts.flatten ≠ [] →
      (runMessages (texts.map inputDelta ++ [turnCompleteMsg]) initialState).messages
        = [{ id := 0, role := Role.user, text := texts.flatten, timestamp := 0 }] ∧
      (runMessages (texts.map outputDelta ++ [turnCompleteMsg]) initialState).messages
        = [{ id := 0, role := Role.assistant, text := texts.flatten, timestamp := 0 }]) ∧
    (∀ (ms : List ServerMessage) (msg : Message),
      msg ∈ (runMessages ms initialState).messages → jsTrim msg.text ≠ []) := by
  constructor
  · intro texts hne
    constructor
    · rw [runMessages_append_single, onmessage_turnComplete]
      obtain ⟨c1, c2, c3, c4, c5, c6⟩ := runInputDeltas texts initialState
      have h1 : jsTrim (runMessages (texts.map inputDelta)
          initialState).currentInputTranscription ≠ [] := by
        rw [c1]
        simpa [initialState] using hne
      have h2 : jsTrim (runMessages (texts.map inputDelta)
          initialState).currentOutputTranscription = [] := by
        rw [c2]
        simp [initialState, jsTrim]
      rw [commitTurn_input_only _ h1 h2]
      simp only [userMsgOf]
      rw [c1, c3, c5, c6]
      simp [initialState]
    · rw [runMessages_append_single, onmessage_turnComplete]
      obtain ⟨c1, c2, c3, c4, c5, c6⟩ := runOutputDeltas texts initialState
      have h1 : jsTrim (runMessages (texts.map outputDelta)
          initialState).currentInputTranscription = [] := by
        rw [c2]
        simp [initialState, jsTrim]
      have h2 : jsTrim (runMessages (texts.map outputDelta)
          initialState).currentOutputTranscription ≠ [] := by
        rw [c1]
        simpa [initialState] using hne
      rw [commitTurn_output_only _ h1 h2]
      simp only [assistantMsgOf]
      rw [c1, c3, c5, c6]
      simp [initialState]
  · intro ms msg hmem
    exact runMessages_messages_trimmed ms initialState (by simp [initialState]) msg hmem

/-- Witness for the amended C1 at the concrete deltas "Wh", "at is 2+2?". -/
theorem claim1_commit_concatenation_witness :
    jsTrim (["Wh".toList, "at is 2+2?".toList] : List Str).flatten ≠ [] ∧
    (runMessages ((["Wh".toList, "at is 2+2?".toList] : List Str).map inputDelta
        ++ [turnCompleteMsg]) initialState).messages
      = [{ id := 0, role := Role.user, text := "What is 2+2?".toList, timestamp := 0 }] := by
  refine ⟨by decide, ?_⟩
  have h := (claim1_commit_concatenation.1 ["Wh".toList, "at is 2+2?".toList] (by decide)).1
  have hflat : (["Wh".toList, "at is 2+2?".toList] : List Str).flatten
      = "What is 2+2?".toList := by decide
  rw [h, hflat]

/-! ### Teardown lemmas -/

theorem stopSession_fields (st : AppState) :
    (stopSession st).1 =
      { st with sessionRef := none, micStreamRef := none, systemStreamRef := none,
                audioContextRef := none,
                status := { st.status with isActive := false, isMicActive := false },
                streamingInput := [], streamingOutput := [] } ∧
    (stopSession st).2 = refTracks st.micStreamRef ++ refTracks st.systemStreamRef := by
  cases hs : st.sessionRef with
  | none => constructor <;> simp [stopSession, hs]
  | some s =>
      cases s with
      | mk b =>
          cases b <;> (constructor <;> simp [stopSession, hs, SessionHandle.close])

/-- Claim C8: `stopSession` is idempotent and safe from any state — it never
throws (it is a total function of the state, and its result does not depend
on whether the session's `close()` throws), it always clears the session,
stream and context handles, resets `isActive`/`isMicActive`, clears both
live-streaming values, and stops every track of both held streams; calling
it again from the resulting state changes nothing and stops no tracks. -/
theorem claim8_stopSession_idempotent_safe :
    (∀ st : AppState,
      (stopSession st).1.sessionRef = none ∧
      (stopSession st).1.micStreamRef = none ∧
      (stopSession st).1.systemStreamRef = none ∧
      (stopSession st).1.audioContextRef = none ∧
      (stopSession st).1.status.isActive = false ∧
      (stopSession st).1.status.isMicActive = false ∧
      (stopSession st).1.streamingInput = [] ∧
      (stopSession st).1.streamingOutput = [] ∧
      (stopSession st).2 = refTracks st.micStreamRef ++ refTracks st.systemStreamRef ∧
      stopSession (stopSession st).1 = ((stopSession st).1, [])) ∧
    (∀ (st : AppState) (b1 b2 : Bool),
      stopSession { st with sessionRef := some { closeThrows := b1 } }
        = stopSession { st with sessionRef := some { closeThrows := b2 } }) := by
  constructor
  · intro st
    obtain ⟨hfst, hsnd⟩ := stopSession_fields st
    obtain ⟨hfst2, hsnd2⟩ := stopSession_fields (stopSession st).1
    refine ⟨by rw [hfst], by rw [hfst], by rw [hfst], by rw [hfst], by rw [hfst],
      by rw [hfst], by rw [hfst], by rw [hfst], hsnd, ?_⟩
    have hpair : stopSession (stopSession st).1
        = ((stopSession (stopSession st).1).1, (stopSession (stopSession st).1).2) := rfl
    rw [hpair, hfst2, hsnd2, hfst]
    simp [refTracks]
  · intro st b1 b2
    cases b1 <;> cases b2 <;> rfl

/-- Claim C10: `stopSession` leaves the committed message history, the
suggestion list, the status error, `isConnecting`, the knowledge base and the
per-turn transcription buffers unchanged — it only resets the handles, the
two activity flags and the two live-streaming values; and the teardown run by
the transport `onerror`/`onclose` callbacks likewise preserves all committed
messages and suggestions. -/
theorem claim10_teardown_preserves_history (st : AppState) :
    (stopSession st).1.messages = st.messages ∧
    (stopSession st).1.suggestions = st.suggestions ∧
    (stopSession st).1.status.error = st.status.error ∧
    (stopSession st).1.status.isConnecting = st.status.isConnecting ∧
    (stopSession st).1.knowledgeBase = st.knowledgeBase ∧
    (stopSession st).1.currentInputTranscription = st.currentInputTranscription ∧
    (stopSession st).1.currentOutputTranscription = st.currentOutputTranscription ∧
    (onerror st).1.messages = st.messages ∧
    (onerror st).1.suggestions = st.suggestions ∧
    (onclose st).1.messages = st.messages ∧
    (onclose st).1.suggestions = st.suggestions := by
  obtain ⟨hfst, _⟩ := stopSession_fields st
  obtain ⟨herr, _⟩ := stopSession_fields
    { st with status := { st.status with error := some connectionErrorMsg, isConnecting := false } }
  refine ⟨by rw [hfst], by rw [hfst], by rw [hfst], by rw [hfst], by rw [hfst],
    by rw [hfst], by rw [hfst], ?_, ?_, ?_, ?_⟩
  · show (stopSession _).1.messages = st.messages
    rw [herr]
  · show (stopSession _).1.suggestions = st.suggestions
    rw [herr]
  · show (stopSession st).1.messages = st.messages
    rw [hfst]
  · show (stopSession st).1.suggestions = st.suggestions
    rw [hfst]

/-- Claim C9: when display capture succeeds but carries zero audio tracks,
`startSession` fails: every track of the display stream (video included) is
stopped, and first (the stopped-track log begins with the display tracks);
the already-acquired microphone stream is released by the failure-path
teardown; the status error is the corrective message naming the
\x27Share audio\x27 action; and no stream, audio context or session handle
remains held afterwards. -/
theorem claim9_no_audio_track_failure (env : MediaEnv) (st : AppState)
    (mic disp : MediaStream)
    (h1 : env.mediaDevicesSupported = true)
    (h2 : env.apiKeyPresent = true)
    (h3 : env.micResult = Except.ok mic)
    (h4 : env.displayResult = Except.ok disp)
    (h5 : disp.audioTracks = []) :
    (startSession env st).2
      = disp.getTracks ++ (mic.getTracks ++ refTracks st.systemStreamRef) ∧
    (∀ t ∈ disp.getTracks, t ∈ (startSession env st).2) ∧
    (∀ t ∈ mic.getTracks, t ∈ (startSession env st).2) ∧
    (startSession env st).1.micStreamRef = none ∧
    (startSession env st).1.systemStreamRef = none ∧
    (startSession env st).1.audioContextRef = none ∧
    (startSession env st).1.sessionRef = none ∧
    (startSession env st).1.status.error = some audioNotSharedMsg ∧
    (startSession env st).1.status.isConnecting = false ∧
    "Share audio".toList <:+: audioNotSharedMsg := by
  rcases env with ⟨mds, akp, micr, dispr, connr⟩
  simp only at h1 h2 h3 h4
  subst h1
  subst h2
  subst h3
  subst h4
  have hmid : ({ st with
      status := { isActive := false, isConnecting := true, isMicActive := false, error := none }
      micStreamRef := some mic } : AppState).systemStreamRef = st.systemStreamRef := rfl
  have hss : startSession
      ⟨true, true, Except.ok mic, Except.ok disp, connr⟩ st
      = ((stopSession { st with
            status := { isActive := false, isConnecting := false, isMicActive := false,
                        error := some audioNotSharedMsg }
            micStreamRef := some mic }).1,
          disp.getTracks ++ (stopSession { st with
            status := { isActive := false, isConnecting := false, isMicActive := false,
                        error := some audioNotSharedMsg }
            micStreamRef := some mic }).2) := by
    simp [startSession, startFailure, MediaStream.getAudioTracks, h5]
  obtain ⟨hfst, hsnd⟩ := stopSession_fields { st with
    status := { isActive := false, isConnecting := false, isMicActive := false,
                error := some audioNotSharedMsg }
    micStreamRef := some mic }
  have hinfix : "Share audio".toList <:+: audioNotSharedMsg := by
    refine ⟨"AUDIO NOT SHARED: You must check the \x27".toList,
      "\x27 box in the browser popup (usually bottom-left).".toList, ?_⟩
    decide
  rw [hss]
  refine ⟨?_, ?_, ?_, ?_, ?_, ?_, ?_, ?_, ?_, hinfix⟩
  · rw [hsnd]
    simp [refTracks]
  · intro t ht
    rw [hsnd]
    simp [refTracks]
    exact Or.inl ht
  · intro t ht
    rw [hsnd]
    simp [refTracks, MediaStream.getTracks] at ht ⊢
    tauto
  · rw [hfst]
  · rw [hfst]
  · rw [hfst]
  · rw [hfst]
  · rw [hfst]
  · rw [hfst]

/-- A microphone stream holding one audio track, for the C9 witness. -/
def wMic : MediaStream :=
  { audioTracks := [1], videoTracks := [] }

/-- A display stream with a video track but no audio track, for the C9
witness. -/
def wDisp : MediaStream :=
  { audioTracks := [], videoTracks := [2] }

/-- A C9 witness environment: capture supported, key present, microphone
granted, display granted without audio. -/
def wEnv : MediaEnv :=
  { mediaDevicesSupported := true, apiKeyPresent := true
    micResult := Except.ok wMic, displayResult := Except.ok wDisp
    connectResult := Except.error [] }

/-- Witness for C9 at a concrete environment whose display stream has no
audio track: the video track 2 and the microphone track 1 are both stopped
(display first), and the status error is the corrective message. -/
theorem claim9_no_audio_track_failure_witness :
    wEnv.mediaDevicesSupported = true ∧
    wEnv.apiKeyPresent = true ∧
    wEnv.micResult = Except.ok wMic ∧
    wEnv.displayResult = Except.ok wDisp ∧
    wDisp.audioTracks = [] ∧
    (startSession wEnv initialState).2 = [2, 1] ∧
    (startSession wEnv initialState).1.status.error = some audioNotSharedMsg := by
  have h := claim9_no_audio_track_failure wEnv initialState wMic wDisp rfl rfl rfl rfl rfl
  refine ⟨rfl, rfl, rfl, rfl, rfl, ?_, h.2.2.2.2.2.2.2.1⟩
  rw [h.1]
  decide
